/-
Verification of the notion-mcp-wrapper core components against their
natural-language specification.

The development shallowly embeds the JavaScript source files:
  lib/retry-policy.js      (RetryPolicy)
  lib/fallback-strategy.js (FallbackStrategy)
  lib/wrapper.js           (NotionMCPWrapper)
  lib/mcp-client.js        (MCPClient, the fixed version)
  lib/health-monitor.js    (HealthMonitor)

Asynchronous effects are made explicit: each state-mutating handler becomes a
pure function from the component state (and the event it reacts to) to the new
state together with the list of observable emissions; promise settlement is an
explicit event.  JavaScript Map objects keyed by numeric ids become lists of
ids, environment and subprocess interaction become explicit parameters.
-/
import Mathlib

set_option maxRecDepth 8000

/-! ## Character and string helpers

JavaScript string operations used by the source, rebuilt over `List Char`.
Characters that are awkward to quote are produced with `Char.ofNat`:
10 = newline, 32 = space, 34 = double quote, 39 = single quote,
92 = backslash, 123 and 125 = braces. -/

/-- One-character string for the character with the given code point. -/
def chr (n : Nat) : String := String.singleton (Char.ofNat n)

/-- Decides whether `pat` is a prefix of `l` (JavaScript `startsWith` on chars). -/
def isPrefixList : List Char → List Char → Bool
  | [], _ => true
  | _ :: _, [] => false
  | a :: as, b :: bs => a = b && isPrefixList as bs

/-- Decides whether `pat` occurs contiguously inside `l`. -/
def hasSubList (pat : List Char) : List Char → Bool
  | [] => isPrefixList pat []
  | c :: t => isPrefixList pat (c :: t) || hasSubList pat t

/-- JavaScript `s.includes(pat)`: substring containment test. -/
def strIncludes (s pat : String) : Bool := hasSubList pat.data s.data

/-! ## RetryPolicy (lib/retry-policy.js)

`execute(fn)` runs `fn` in a loop `for (attempt = 0; attempt <= maxRetries;
attempt++)`, keeping the last error; when all attempts fail the last error is
re-thrown unchanged.  The embedding gives `fn` the attempt index and also
returns the number of invocations performed. -/

structure RetryPolicy where
  maxRetries : Nat
  baseDelayMs : Nat
  maxDelayMs : Nat
  backoffMultiplier : Nat

/-- `_calculateDelay(attempt)`: `min(baseDelayMs * multiplier ^ attempt, maxDelayMs)`. -/
def RetryPolicy.calculateDelay (p : RetryPolicy) (attempt : Nat) : Nat :=
  min (p.baseDelayMs * p.backoffMultiplier ^ attempt) p.maxDelayMs

/-- The retry loop body: `attempt` is the current index, the second argument is
the number of retries still allowed after this attempt.  Returns the final
outcome together with how many times `fn` was invoked. -/
def RetryPolicy.execGo {ε α : Type} (fn : Nat → Except ε α) (attempt : Nat) :
    Nat → Except ε α × Nat
  | 0 => (fn attempt, 1)
  | n + 1 =>
    match fn attempt with
    | Except.ok a => (Except.ok a, 1)
    | Except.error _ =>
      let r := RetryPolicy.execGo fn (attempt + 1) n
      (r.1, r.2 + 1)

/-- `RetryPolicy.execute(fn)`: run the loop starting at attempt 0 with
`maxRetries` further attempts allowed. -/
def RetryPolicy.execute {ε α : Type} (p : RetryPolicy) (fn : Nat → Except ε α) :
    Except ε α × Nat :=
  RetryPolicy.execGo fn 0 p.maxRetries

/-! ## JSON values

A small model of JavaScript values as passed through `JSON.stringify` /
`JSON.parse`.  `JSON.stringify` escapes double quotes, backslashes and the
common control characters inside strings; it does not escape single quotes
(which is what claim C10 is about). -/

inductive Json where
  | null : Json
  | bool (b : Bool) : Json
  | num (n : Int) : Json
  | str (s : String) : Json
  | arr (elems : List Json) : Json
  | obj (fields : List (String × Json)) : Json

/-- String-character escaping as performed by `JSON.stringify`. -/
def jsonEscapeChar (c : Char) : String :=
  if c = Char.ofNat 34 then chr 92 ++ chr 34
  else if c = Char.ofNat 92 then chr 92 ++ chr 92
  else if c = Char.ofNat 10 then chr 92 ++ "n"
  else if c = Char.ofNat 13 then chr 92 ++ "r"
  else if c = Char.ofNat 9 then chr 92 ++ "t"
  else String.singleton c

/-- A JSON string literal: escaped content between double quotes. -/
def jsonQuote (s : String) : String :=
  chr 34 ++ String.join (s.data.map jsonEscapeChar) ++ chr 34

/-- Comma-joining, as `Array.prototype.join(",")`. -/
def joinComma : List String → String
  | [] => ""
  | [s] => s
  | s :: rest => s ++ "," ++ joinComma rest

mutual

/-- `JSON.stringify` on the `Json` model. -/
def jsonStringify : Json → String
  | Json.null => "null"
  | Json.bool true => "true"
  | Json.bool false => "false"
  | Json.num n => toString n
  | Json.str s => jsonQuote s
  | Json.arr xs => "[" ++ jsonStringifyList xs ++ "]"
  | Json.obj fs => chr 123 ++ jsonStringifyFields fs ++ chr 125

/-- Serialization of an array body. -/
def jsonStringifyList : List Json → String
  | [] => ""
  | [x] => jsonStringify x
  | x :: xs => jsonStringify x ++ "," ++ jsonStringifyList xs

/-- Serialization of an object body. -/
def jsonStringifyFields : List (String × Json) → String
  | [] => ""
  | [kv] => jsonQuote kv.1 ++ ":" ++ jsonStringify kv.2
  | kv :: kvs => jsonQuote kv.1 ++ ":" ++ jsonStringify kv.2 ++ "," ++ jsonStringifyFields kvs

end

/-- `JSON.stringify` of an object literal some of whose fields may be the
JavaScript value `undefined`: such fields are omitted from the output. -/
def stringifyObjOpt (fields : List (String × Option Json)) : String :=
  chr 123 ++
    joinComma (fields.filterMap (fun kv => kv.2.map (fun j => jsonQuote kv.1 ++ ":" ++ jsonStringify j))) ++
    chr 125

/-- JavaScript truthiness of a `Json` value. -/
def jsTruthy : Json → Bool
  | Json.null => false
  | Json.bool b => b
  | Json.num n => n != 0
  | Json.str s => s != ""
  | Json.arr _ => true
  | Json.obj _ => true

/-! ## FallbackStrategy (lib/fallback-strategy.js)

`execute(operation, params)` shells out to `curl` via `exec`; the embedding
splits it into the command construction (`_buildCurlCommand`, a pure string
builder) and the response post-processing (the `try`/`catch` around the
`execAsync` call and `JSON.parse`). -/

/-- The `supportedOperations` list from the constructor. -/
def FallbackStrategy.supportedOperations : List String :=
  ["movePage", "getPage", "updatePage", "createPage", "deletePage"]

/-- The fields of a parsed fallback response that `execute` inspects:
`result.object` (the discriminator) and `result.message`. -/
structure NotionResponse where
  object : Option String
  message : Option String
deriving DecidableEq

/-- The response handling of `FallbackStrategy.execute`: the argument is the
outcome of `JSON.parse(stdout)` (an `Except.error` models a thrown parse or
transport error, carrying the error message).  Inside the `try`, a payload
with `object === "error"` throws `new Error(result.message)`; the `catch`
re-throws the caught error only when its message contains the substring
"object", and otherwise wraps it as "Fallback failed: ...".  A success is
returned tagged with source "fallback". -/
def FallbackStrategy.processParsed (parsed : Except String NotionResponse) :
    Except String (NotionResponse × String) :=
  let inner : Except String (NotionResponse × String) :=
    match parsed with
    | Except.error m => Except.error m
    | Except.ok r =>
      if r.object = some "error" then Except.error (r.message.getD "")
      else Except.ok (r, "fallback")
  match inner with
  | Except.ok v => Except.ok v
  | Except.error m =>
    if strIncludes m "object" then Except.error m
    else Except.error ("Fallback failed: " ++ m)

/-- The parameter bag consumed by `_buildCurlCommand`; absent JavaScript
fields are `none`. -/
structure FallbackParams where
  page_id : String
  parent : Option Json
  properties : Option Json
  archived : Option Bool
  icon : Option Json
  cover : Option Json
  children : Option Json

/-- A parameter bag with every field absent. -/
def emptyParams : FallbackParams := ⟨"", none, none, none, none, none, none⟩

/-- The line-continuation separator written by the template literals:
a space, a backslash, a newline and six spaces of indentation. -/
def lineCont : String := " " ++ chr 92 ++ chr 10 ++ "      "

/-- The `headers.join(...)` string: three `-H` header arguments carrying the
bearer credential, the content type and the fixed Notion-Version. -/
def buildHeaders (apiKey : String) : String :=
  "-H " ++ chr 34 ++ "Authorization: Bearer " ++ apiKey ++ chr 34 ++ lineCont ++
  "-H " ++ chr 34 ++ "Content-Type: application/json" ++ chr 34 ++ lineCont ++
  "-H " ++ chr 34 ++ "Notion-Version: 2022-06-28" ++ chr 34

/-- The Notion API base endpoint. -/
def notionBaseUrl : String := "https://api.notion.com/v1"

/-- The `updateBody` object assembled by the `updatePage` branch: `properties`,
`icon` and `cover` are included when truthy, `archived` when not undefined. -/
def buildUpdateBody (p : FallbackParams) : String :=
  stringifyObjOpt
    ((match p.properties with
      | some j => if jsTruthy j then [("properties", some j)] else []
      | none => []) ++
     (match p.archived with
      | some b => [("archived", some (Json.bool b))]
      | none => []) ++
     (match p.icon with
      | some j => if jsTruthy j then [("icon", some j)] else []
      | none => []) ++
     (match p.cover with
      | some j => if jsTruthy j then [("cover", some j)] else []
      | none => []))

/-- `_buildCurlCommand(operation, params, apiKey)`: the exact command string
passed to `exec`.  Interpolation of `params.page_id` into the URL and of the
JSON-serialized body into the single-quoted `-d` argument is verbatim, with
no quoting or escaping.  The `default` branch throws. -/
def FallbackStrategy.buildCurlCommand (operation : String) (p : FallbackParams)
    (apiKey : String) : Except String String :=
  if operation = "movePage" then
    Except.ok ("curl -s -X PATCH" ++ lineCont ++ buildHeaders apiKey ++ lineCont ++
      "-d " ++ chr 39 ++ stringifyObjOpt [("parent", p.parent)] ++ chr 39 ++ lineCont ++
      notionBaseUrl ++ "/pages/" ++ p.page_id)
  else if operation = "getPage" then
    Except.ok ("curl -s" ++ lineCont ++ buildHeaders apiKey ++ lineCont ++
      notionBaseUrl ++ "/pages/" ++ p.page_id)
  else if operation = "updatePage" then
    Except.ok ("curl -s -X PATCH" ++ lineCont ++ buildHeaders apiKey ++ lineCont ++
      "-d " ++ chr 39 ++ buildUpdateBody p ++ chr 39 ++ lineCont ++
      notionBaseUrl ++ "/pages/" ++ p.page_id)
  else if operation = "createPage" then
    Except.ok ("curl -s -X POST" ++ lineCont ++ buildHeaders apiKey ++ lineCont ++
      "-d " ++ chr 39 ++
      stringifyObjOpt [("parent", p.parent), ("properties", p.properties), ("children", p.children)] ++
      chr 39 ++ lineCont ++ notionBaseUrl ++ "/pages")
  else if operation = "deletePage" then
    Except.ok ("curl -s -X PATCH" ++ lineCont ++ buildHeaders apiKey ++ lineCont ++
      "-d " ++ chr 39 ++ stringifyObjOpt [("archived", some (Json.bool true))] ++ chr 39 ++ lineCont ++
      notionBaseUrl ++ "/pages/" ++ p.page_id)
  else Except.error ("Unknown operation: " ++ operation)

/-! ## NotionMCPWrapper (lib/wrapper.js)

`execute(operation, params)` resolves the operation to an MCP tool name,
runs the MCP call (wrapped in `RetryPolicy` when enabled) and on failure
falls back to `FallbackStrategy` when that is enabled and supports the
operation.  The outcomes of the two transports are passed in explicitly:
`mcpCall i` is the outcome of the i-th MCP invocation, `fallbackResult` the
outcome of `FallbackStrategy.execute` should it be invoked. -/

/-- The `toolMap` table of `_getToolName`. -/
def NotionMCPWrapper.toolMap : List (String × String) :=
  [("movePage", "API-move-page"),
   ("getPage", "API-retrieve-a-page"),
   ("updatePage", "API-patch-page"),
   ("createPage", "API-post-page"),
   ("deletePage", "API-delete-a-block"),
   ("getBlockChildren", "API-get-block-children"),
   ("appendBlocks", "API-patch-block-children"),
   ("queryDatabase", "API-query-data-source"),
   ("search", "API-post-search")]

/-- `_getToolName(operation)`: table lookup, `none` when absent. -/
def NotionMCPWrapper.getToolName (operation : String) : Option String :=
  NotionMCPWrapper.toolMap.lookup operation

/-- The outcome of the primary path: `retryPolicy.execute(executeFn)` when
retry is enabled, a single `executeFn()` invocation otherwise. -/
def primaryOutcome (retryPolicy : Option RetryPolicy)
    (mcpCall : Nat → Except String Json) : Except String Json :=
  match retryPolicy with
  | some p => (p.execute mcpCall).1
  | none => mcpCall 0

/-- `NotionMCPWrapper.execute`: returns the settled outcome (data paired with
its provenance tag) together with a flag recording whether the fallback
strategy was invoked.  On primary failure the fallback runs only when enabled
and the operation is in `FallbackStrategy.supportedOperations`; otherwise the
original error is re-thrown unchanged.  A fallback failure is wrapped as
"Fallback also failed: ...". -/
def NotionMCPWrapper.execute (retryPolicy : Option RetryPolicy) (fallbackEnabled : Bool)
    (operation : String) (mcpCall : Nat → Except String Json)
    (fallbackResult : Except String Json) :
    Except String (Json × String) × Bool :=
  match NotionMCPWrapper.getToolName operation with
  | none => (Except.error ("Unknown operation: " ++ operation), false)
  | some _ =>
    match primaryOutcome retryPolicy mcpCall with
    | Except.ok r => (Except.ok (r, "mcp"), false)
    | Except.error e =>
      if fallbackEnabled ∧ operation ∈ FallbackStrategy.supportedOperations then
        match fallbackResult with
        | Except.ok r => (Except.ok (r, "fallback"), true)
        | Except.error fe => (Except.error ("Fallback also failed: " ++ fe), true)
      else (Except.error e, false)

/-! ## MCPClient (lib/mcp-client.js, fixed version)

The client owns a subprocess handle, a monotonically increasing request-id
counter and a map of pending requests.  The embedding keeps the pending map as
the list of outstanding ids (all entries behave uniformly: settling an entry
is an explicit `ClientEvent.settled` emission), the subprocess handle as an
`Option Nat` and the handlers as pure state transitions. -/

structure MCPClient where
  process : Option Nat
  requestId : Nat
  pendingRequests : List Nat
  isReady : Bool
  buffer : String
  connecting : Bool
  requestTimeoutMs : Nat

/-- Observable emissions of the client handlers: `handshakeDone` models the
`emit("initialized")` (preceded by the one-way initialized notification);
`settled` models resolving or rejecting the promise of the pending request
with the given id; `disconnectedEmitted` models `emit("disconnected", {code})`. -/
inductive ClientEvent where
  | handshakeDone : ClientEvent
  | settled (id : Nat) (outcome : Except String Json) : ClientEvent
  | disconnectedEmitted (code : Int) : ClientEvent

/-- A parsed JSON-RPC message as inspected by `_handleMessage`: the numeric
`id` when present, the `result` member when present, and the error message
when an `error` member is present. -/
structure RpcMsg where
  id : Option Nat
  result : Option Json
  error : Option String

/-- `_handleMessage(line)` after a successful `JSON.parse`: a message with
`id === 1` and a truthy `result` is treated as the handshake response (the
initialized notification is sent and "initialized" is emitted); otherwise a
message whose id is in the pending map settles that entry — rejecting with
`error.message || "MCP Error"` when an error member is present, resolving
with the result otherwise (`Json.null` standing for `undefined`).  Unmatched
ids are dropped silently. -/
def MCPClient.handleMessage (c : MCPClient) (msg : RpcMsg) : MCPClient × List ClientEvent :=
  if msg.id = some 1 ∧ msg.result.isSome then
    (c, [ClientEvent.handshakeDone])
  else
    match msg.id with
    | some i =>
      if i ∈ c.pendingRequests then
        ({ c with pendingRequests := c.pendingRequests.erase i },
         match msg.error with
         | some m => [ClientEvent.settled i (Except.error (if m = "" then "MCP Error" else m))]
         | none => [ClientEvent.settled i (Except.ok (msg.result.getD Json.null))])
      else (c, [])
    | none => (c, [])

/-- `_attemptConnection` (the part visible in this state model): spawn the
subprocess with handle `pid`, then send the initialize request with
`id: ++this.requestId`.  Returns the new state and the id carried by the
handshake request. -/
def MCPClient.attemptConnection (c : MCPClient) (pid : Nat) : MCPClient × Nat :=
  let rid := c.requestId + 1
  ({ c with process := some pid, requestId := rid }, rid)

/-- `callTool` up to issuing the request: allocate `id: ++this.requestId`,
store the pending entry, write the framed request.  Returns the new state and
the allocated id. -/
def MCPClient.callToolSend (c : MCPClient) : MCPClient × Nat :=
  let rid := c.requestId + 1
  ({ c with requestId := rid, pendingRequests := c.pendingRequests ++ [rid] }, rid)

/-- The per-call timeout handler of `callTool` firing for id `i`: if the entry
is still pending it is removed and the call is rejected with the timeout
error; otherwise nothing happens. -/
def MCPClient.timeoutFire (c : MCPClient) (i : Nat) : MCPClient × List ClientEvent :=
  if i ∈ c.pendingRequests then
    ({ c with pendingRequests := c.pendingRequests.erase i },
     [ClientEvent.settled i
        (Except.error ("Request timeout (" ++ toString c.requestTimeoutMs ++ "ms)"))])
  else (c, [])

/-- `_resetState()`: drop the process handle, mark not ready, clear the
pending map (without settling any entry), clear the line buffer and the
connection-attempt bookkeeping.  The request-id counter is not reset. -/
def MCPClient.resetState (c : MCPClient) : MCPClient :=
  { c with process := none, isReady := false, pendingRequests := [],
           buffer := "", connecting := false }

/-- `_cleanup()`: kill the subprocess when present (errors ignored), then
reset the state.  The second component lists the process handles killed. -/
def MCPClient.cleanup (c : MCPClient) : MCPClient × List Nat :=
  (c.resetState, c.process.toList)

/-- `disconnect()` delegates to `_cleanup()`. -/
def MCPClient.disconnect (c : MCPClient) : MCPClient × List Nat :=
  c.cleanup

/-- The `close` handler installed by `_setupProcessHandlers`: on subprocess
exit the state is reset (clearing pending entries without settling them) and
a disconnected notification carrying the exit code is emitted. -/
def MCPClient.onProcessClose (c : MCPClient) (code : Int) : MCPClient × List ClientEvent :=
  (c.resetState, [ClientEvent.disconnectedEmitted code])

/-! ## HealthMonitor (lib/health-monitor.js)

The monitor holds the interval and probe-timeout configuration and the
current health sample.  `_checkHealth` is embedded as a transition on the
probe outcome; the timer behaviour of `start()` is embedded as the
probe-issue schedule it creates. -/

structure HealthMonitor where
  checkIntervalMs : Nat
  timeoutMs : Nat
  isRunning : Bool
  isHealthy : Bool
  lastLatency : Option Nat

/-- The outcome of one probe (`_ping()` raced against the probe timeout):
either the call resolved with the measured latency, or it failed with the
given reason (a transport error or "Health check timeout"). -/
inductive ProbeOutcome where
  | success (latency : Nat) : ProbeOutcome
  | failure (reason : String) : ProbeOutcome

/-- Notifications emitted by `_checkHealth`. -/
inductive HealthEvent where
  | healthChange (healthy : Bool) (latency : Option Nat) : HealthEvent
  | recoveryNeeded (reason : String) : HealthEvent

/-- Whether a `healthChange` notification occurs in an emission list. -/
def hasHealthChange : List HealthEvent → Bool
  | [] => false
  | HealthEvent.healthChange _ _ :: _ => true
  | _ :: evs => hasHealthChange evs

/-- Whether the outcome is a failure. -/
def ProbeOutcome.isFailure : ProbeOutcome → Bool
  | ProbeOutcome.failure _ => true
  | ProbeOutcome.success _ => false

/-- `_checkHealth()` as a transition on the probe outcome: on success the
sample becomes healthy with the measured latency and `healthChange` is
emitted only when the monitor was previously unhealthy; on failure the sample
becomes unhealthy with no latency and both `healthChange(false)` and
`recoveryNeeded(reason)` are emitted unconditionally. -/
def HealthMonitor.checkHealth (m : HealthMonitor) (o : ProbeOutcome) :
    HealthMonitor × List HealthEvent :=
  match o with
  | ProbeOutcome.success latency =>
    let wasHealthy := m.isHealthy
    ({ m with isHealthy := true, lastLatency := some latency },
     if wasHealthy then [] else [HealthEvent.healthChange true (some latency)])
  | ProbeOutcome.failure reason =>
    ({ m with isHealthy := false, lastLatency := none },
     [HealthEvent.healthChange false none, HealthEvent.recoveryNeeded reason])

/-- The probe-issue schedule created by `start()`: an immediate first check
followed by `setInterval(() => this._checkHealth(), checkIntervalMs)` —
probe `i` is issued at time `i * checkIntervalMs` regardless of whether an
earlier probe has settled (no in-flight guard exists in `_checkHealth`). -/
def HealthMonitor.probeIssueTime (m : HealthMonitor) (i : Nat) : Nat :=
  i * m.checkIntervalMs

/-- The settle time of probe `i` when the underlying `callTool` takes
`lat i` milliseconds: `_ping()` races the call against the probe timeout, so
the probe settles `min (lat i) timeoutMs` after it was issued. -/
def HealthMonitor.probeSettleTime (m : HealthMonitor) (lat : Nat → Nat) (i : Nat) : Nat :=
  m.probeIssueTime i + min (lat i) m.timeoutMs

/-! ## Shell field splitting

`FallbackStrategy.execute` hands the constructed command string to `exec`,
which runs it through a shell.  To speak about the "structure" of the command
(claim C10) we model POSIX-style field splitting: fields are separated by
unquoted spaces and newlines, single quotes quote literally until the next
single quote, double quotes until the next double quote, and an unquoted
backslash escapes the following character (backslash-newline is the line
continuation the command templates rely on).  The splitter returns the list
of fields together with a flag telling whether the input ended inside an
unterminated quote. -/

inductive ShMode where
  | norm : ShMode
  | sQuote : ShMode
  | dQuote : ShMode

/-- The field-splitting loop: input, quoting mode, current field, whether a
field has been started, fields finished so far. -/
def shSplitGo : List Char → ShMode → List Char → Bool → List String → List String × Bool
  | [], ShMode.norm, cur, started, acc =>
    (acc ++ (if started then [String.mk cur] else []), false)
  | [], ShMode.sQuote, cur, started, acc =>
    (acc ++ (if started then [String.mk cur] else []), true)
  | [], ShMode.dQuote, cur, started, acc =>
    (acc ++ (if started then [String.mk cur] else []), true)
  | c :: rest, ShMode.norm, cur, started, acc =>
    if c = Char.ofNat 32 ∨ c = Char.ofNat 10 then
      shSplitGo rest ShMode.norm [] false (acc ++ (if started then [String.mk cur] else []))
    else if c = Char.ofNat 39 then
      shSplitGo rest ShMode.sQuote cur true acc
    else if c = Char.ofNat 34 then
      shSplitGo rest ShMode.dQuote cur true acc
    else if c = Char.ofNat 92 then
      match rest with
      | [] => (acc ++ [String.mk (cur ++ [c])], false)
      | d :: rest2 =>
        if d = Char.ofNat 10 then shSplitGo rest2 ShMode.norm cur started acc
        else shSplitGo rest2 ShMode.norm (cur ++ [d]) true acc
    else shSplitGo rest ShMode.norm (cur ++ [c]) true acc
  | c :: rest, ShMode.sQuote, cur, started, acc =>
    if c = Char.ofNat 39 then shSplitGo rest ShMode.norm cur started acc
    else shSplitGo rest ShMode.sQuote (cur ++ [c]) started acc
  | c :: rest, ShMode.dQuote, cur, started, acc =>
    if c = Char.ofNat 34 then shSplitGo rest ShMode.norm cur started acc
    else shSplitGo rest ShMode.dQuote (cur ++ [c]) started acc

/-- Split a command string into shell fields; the second component is true
when the string ends inside an unterminated quote. -/
def shSplit (s : String) : List String × Bool :=
  shSplitGo s.data ShMode.norm [] false []

/-- The command `_buildCurlCommand` produces for an operation under a fixed
credential, defaulting to the empty string on the throwing branch. -/
def cmdOf (operation : String) (p : FallbackParams) : String :=
  match FallbackStrategy.buildCurlCommand operation p "secretkey" with
  | Except.ok s => s
  | Except.error _ => ""

/-- getPage command for a well-behaved page id. -/
def benignGetCmd : String := cmdOf "getPage" { emptyParams with page_id := "abc123" }

/-- getPage command for a page id containing a space. -/
def spacedGetCmd : String := cmdOf "getPage" { emptyParams with page_id := "abc 123" }

/-- getPage command for a page id containing a single quote. -/
def quotedGetCmd : String :=
  cmdOf "getPage" { emptyParams with page_id := "abc" ++ chr 39 ++ "123" }

/-- movePage command for a well-behaved parent reference. -/
def benignMoveCmd : String :=
  cmdOf "movePage"
    { emptyParams with page_id := "p1", parent := some (Json.obj [("page_id", Json.str "Q1")]) }

/-- movePage command whose parent page id value contains a single quote. -/
def quotedMoveCmd : String :=
  cmdOf "movePage"
    { emptyParams with page_id := "p1",
                       parent := some (Json.obj [("page_id", Json.str ("Q" ++ chr 39 ++ "1"))]) }

/-! ## Theorems -/

/-- Helper for C1: if every invocation fails, the loop starting at `attempt`
with `n` retries left performs exactly `n + 1` invocations and returns the
error of the last attempt. -/
theorem execGo_all_fail {α : Type} (fn : Nat → Except String α) (errOf : Nat → String)
    (h : ∀ i, fn i = Except.error (errOf i)) :
    ∀ n a, RetryPolicy.execGo fn a n = (Except.error (errOf (a + n)), n + 1) := by
  intro n
  induction n with
  | zero =>
    intro a
    simp [RetryPolicy.execGo, h a]
  | succ n ih =>
    intro a
    simp only [RetryPolicy.execGo, h a, ih (a + 1)]
    have harg : a + 1 + n = a + (n + 1) := by omega
    rw [harg]

/-- C1: for an always-failing operation, `RetryPolicy.execute` with
`maxRetries = N` invokes the operation exactly `N + 1` times and re-raises
the last error unchanged. -/
theorem retryPolicy_exhaustion_reraises_last_error (p : RetryPolicy) {α : Type}
    (fn : Nat → Except String α) (errOf : Nat → String)
    (h : ∀ i, fn i = Except.error (errOf i)) :
    p.execute fn = (Except.error (errOf p.maxRetries), p.maxRetries + 1) := by
  have := execGo_all_fail fn errOf h p.maxRetries 0
  simpa [RetryPolicy.execute] using this

/-- C1 witness: `maxRetries = 2` with an operation failing with "boom" on
every attempt yields the error "boom" after exactly 3 invocations. -/
theorem retryPolicy_exhaustion_reraises_last_error_witness :
    RetryPolicy.execute ⟨2, 1000, 30000, 2⟩
      (fun _ => (Except.error "boom" : Except String Nat)) =
      (Except.error "boom", 3) :=
  retryPolicy_exhaustion_reraises_last_error ⟨2, 1000, 30000, 2⟩
    (fun _ => Except.error "boom") (fun _ => "boom") (fun _ => rfl)

/-- C2: when the primary path fails, `execute("search", ...)` never invokes the
fallback strategy (search is outside the fallback-supported set) and the
original error propagates unchanged. -/
theorem wrapper_search_failure_skips_fallback (rp : Option RetryPolicy) (fb : Bool)
    (mcpCall : Nat → Except String Json) (fbRes : Except String Json) (e : String)
    (h : primaryOutcome rp mcpCall = Except.error e) :
    NotionMCPWrapper.execute rp fb "search" mcpCall fbRes = (Except.error e, false) := by
  have htool : NotionMCPWrapper.getToolName "search" = some "API-post-search" := by decide
  have hmem : "search" ∉ FallbackStrategy.supportedOperations := by decide
  simp [NotionMCPWrapper.execute, htool, h, hmem]

/-- C2 witness: with retry disabled, fallback enabled and a primary path that
fails with "primary down", `execute("search", ...)` returns that very error
and the fallback-invoked flag stays false. -/
theorem wrapper_search_failure_skips_fallback_witness :
    NotionMCPWrapper.execute none true "search" (fun _ => Except.error "primary down")
      (Except.ok Json.null) = (Except.error "primary down", false) :=
  wrapper_search_failure_skips_fallback none true (fun _ => Except.error "primary down")
    (Except.ok Json.null) "primary down" rfl

/-- C7 counterexample: a fallback payload `{object: "error", message: "Page not
found"}` does not surface the embedded message verbatim; the `catch` block
re-wraps it as "Fallback failed: Page not found" because the message does not
contain the substring "object". -/
theorem fallback_error_message_wrapped_cex :
    FallbackStrategy.processParsed (Except.ok ⟨some "error", some "Page not found"⟩) =
      Except.error "Fallback failed: Page not found" ∧
    FallbackStrategy.processParsed (Except.ok ⟨some "error", some "Page not found"⟩) ≠
      Except.error "Page not found" := by
  refine ⟨rfl, ?_⟩
  intro h
  rw [show FallbackStrategy.processParsed (Except.ok ⟨some "error", some "Page not found"⟩) =
      Except.error "Fallback failed: Page not found" from rfl] at h
  exact absurd (Except.error.inj h) (by decide)

/-- C7 amended: an error-object payload always fails the call, but the caller
sees the embedded message verbatim only when that message happens to contain
the substring "object"; otherwise the error is re-wrapped as
"Fallback failed: message". -/
theorem fallback_error_message_conditional_wrap (m : String) :
    FallbackStrategy.processParsed (Except.ok ⟨some "error", some m⟩) =
      (if strIncludes m "object" then Except.error m
       else Except.error ("Fallback failed: " ++ m)) := by
  simp only [FallbackStrategy.processParsed, Option.getD]
  split <;> simp_all

/-- C3 counterexample: a fresh client's first handshake request carries id 1
and its response is recognized; after a tool call, a process exit and a
reconnect, the new handshake request carries id 3 (the counter is never
reset) and its response produces no recognition event at all — so the
handshake is not matched by a reserved id on every connection attempt. -/
theorem handshake_reconnect_unrecognized_cex :
    (let c0 : MCPClient := ⟨none, 0, [], false, "", false, 30000⟩
     let a1 := c0.attemptConnection 100
     let c2 : MCPClient := { a1.1 with isReady := true }
     let c3 := (c2.callToolSend).1
     let c4 := (c3.handleMessage ⟨some 2, some Json.null, none⟩).1
     let c5 := (c4.onProcessClose 0).1
     let a2 := c5.attemptConnection 101
     a1.2 = 1 ∧ a2.2 = 3 ∧
     (a1.1.handleMessage ⟨some a1.2, some Json.null, none⟩).2 = [ClientEvent.handshakeDone] ∧
     (a2.1.handleMessage ⟨some a2.2, some Json.null, none⟩).2 = []) :=
  ⟨rfl, rfl, rfl, rfl⟩

/-- C3 amended: the handshake matcher is the hard-coded id 1, which equals the
first value ever drawn from the shared request counter; since `_resetState`
does not reset the counter, a connection attempt recognizes its handshake
response (which echoes the id the request carried) exactly when the client
has never issued a request before. -/
theorem handshake_reserved_id_only_first_connection (c : MCPClient) (pid : Nat) (v : Json) :
    ((c.resetState).attemptConnection pid).2 = c.requestId + 1 ∧
    (((c.resetState).attemptConnection pid).1.handleMessage
        ⟨some ((c.resetState).attemptConnection pid).2, some v, none⟩).2 =
      (if c.requestId = 0 then [ClientEvent.handshakeDone] else []) := by
  refine ⟨rfl, ?_⟩
  by_cases h : c.requestId = 0
  · simp [MCPClient.resetState, MCPClient.attemptConnection, MCPClient.handleMessage, h]
  · simp only [MCPClient.resetState, MCPClient.attemptConnection, MCPClient.handleMessage]
    have hne : ¬ (c.requestId + 1 = 1) := by omega
    simp [h, hne]

/-- C6: when the per-call timeout fires for a pending call `i`, that entry is
removed and rejected with the timeout error, while the subprocess handle is
untouched and any other pending call `j` stays in the map and is still
resolved by its matching response.  (`j ≠ 1` holds for every call id: id 1 is
consumed by the handshake and call ids only count upward from there.) -/
theorem callTool_timeout_localized (c : MCPClient) (i j : Nat) (v : Json)
    (hnd : c.pendingRequests.Nodup) (hi : i ∈ c.pendingRequests)
    (hj : j ∈ c.pendingRequests) (hij : j ≠ i) (hj1 : j ≠ 1) :
    (c.timeoutFire i).2 =
      [ClientEvent.settled i
        (Except.error ("Request timeout (" ++ toString c.requestTimeoutMs ++ "ms)"))] ∧
    (c.timeoutFire i).1.process = c.process ∧
    i ∉ (c.timeoutFire i).1.pendingRequests ∧
    j ∈ (c.timeoutFire i).1.pendingRequests ∧
    ((c.timeoutFire i).1.handleMessage ⟨some j, some v, none⟩).2 =
      [ClientEvent.settled j (Except.ok v)] := by
  have hfire : c.timeoutFire i =
      ({ c with pendingRequests := c.pendingRequests.erase i },
       [ClientEvent.settled i
          (Except.error ("Request timeout (" ++ toString c.requestTimeoutMs ++ "ms)"))]) := by
    simp [MCPClient.timeoutFire, hi]
  have hjmem : j ∈ c.pendingRequests.erase i := by
    rw [List.Nodup.mem_erase_iff hnd]
    exact ⟨hij, hj⟩
  refine ⟨by rw [hfire], by rw [hfire], ?_, ?_, ?_⟩
  · rw [hfire]
    simp [List.Nodup.mem_erase_iff hnd]
  · rw [hfire]
    exact hjmem
  · rw [hfire]
    simp [MCPClient.handleMessage, hj1, hjmem]

/-- C6 witness: in a client with pending calls 2 and 3, the timeout of call 2
rejects exactly call 2, keeps the process handle and call 3, and call 3 is
afterwards resolved by its own response. -/
theorem callTool_timeout_localized_witness :
    (let c : MCPClient := ⟨some 7, 3, [2, 3], true, "", false, 30000⟩
     (c.timeoutFire 2).2 =
       [ClientEvent.settled 2
         (Except.error ("Request timeout (" ++ toString c.requestTimeoutMs ++ "ms)"))] ∧
     (c.timeoutFire 2).1.process = c.process ∧
     2 ∉ (c.timeoutFire 2).1.pendingRequests ∧
     3 ∈ (c.timeoutFire 2).1.pendingRequests ∧
     ((c.timeoutFire 2).1.handleMessage ⟨some 3, some Json.null, none⟩).2 =
       [ClientEvent.settled 3 (Except.ok Json.null)]) :=
  callTool_timeout_localized ⟨some 7, 3, [2, 3], true, "", false, 30000⟩ 2 3 Json.null
    (by decide) (by decide) (by decide) (by decide) (by decide)

/-- C8: `disconnect()` is idempotent — after one call the state has no process
handle, an empty pending map and is not ready, and a second call returns the
very same state, kills nothing and does not fail. -/
theorem disconnect_idempotent (c : MCPClient) :
    ((c.disconnect).1).disconnect = ((c.disconnect).1, []) ∧
    (c.disconnect).1.process = none ∧
    (c.disconnect).1.pendingRequests = [] ∧
    (c.disconnect).1.isReady = false :=
  ⟨rfl, rfl, rfl, rfl⟩

/-- C9 counterexample: a client with pending call 2 suffers a process exit;
the close handler clears the entry without rejecting it (only a disconnected
notification is emitted), and when the request timeout for call 2 later fires
it finds no pending entry and settles nothing — the promise of call 2 never
settles, contradicting the claim that it fails once its timeout fires. -/
theorem process_exit_abandoned_call_never_settles_cex :
    (let c : MCPClient := ⟨some 5, 2, [2], true, "", false, 30000⟩
     let r := c.onProcessClose 1
     r.2 = [ClientEvent.disconnectedEmitted 1] ∧
     r.1.timeoutFire 2 = (r.1, [])) :=
  ⟨rfl, rfl⟩

/-- C9 amended: on subprocess exit every pending entry is cleared without
being settled (only the disconnected notification is emitted), and because
the per-call timeout handler only rejects an entry still present in the map,
any later timeout firing settles nothing — an abandoned call's promise never
settles at all. -/
theorem process_exit_clears_pending_unrejected (c : MCPClient) (code : Int) (i : Nat) :
    (c.onProcessClose code).2 = [ClientEvent.disconnectedEmitted code] ∧
    (c.onProcessClose code).1.pendingRequests = [] ∧
    (c.onProcessClose code).1.timeoutFire i = ((c.onProcessClose code).1, []) := by
  refine ⟨rfl, rfl, ?_⟩
  simp [MCPClient.onProcessClose, MCPClient.timeoutFire, MCPClient.resetState]

/-- C4 counterexample: with the source defaults (checkIntervalMs 5000,
timeoutMs 10000), a probe whose transport call takes 7000 ms is still in
flight when the interval timer issues the next probe at 5000 ms — the monitor
has no in-flight guard, so two probes are in flight at once. -/
theorem healthMonitor_probe_overlap_cex :
    (let m : HealthMonitor := ⟨5000, 10000, true, false, none⟩
     m.probeIssueTime 1 < m.probeSettleTime (fun _ => 7000) 0) := by
  decide

/-- C4 amended: probes are issued on the fixed interval timer with no
serialization guard; probe `i + 1` is issued before probe `i` has settled
exactly when the duration of probe `i` (its call latency capped by the probe
timeout) exceeds the check interval. -/
theorem healthMonitor_probe_overlap_characterization (m : HealthMonitor)
    (lat : Nat → Nat) (i : Nat) :
    m.probeIssueTime (i + 1) < m.probeSettleTime lat i ↔
      m.checkIntervalMs < min (lat i) m.timeoutMs := by
  simp only [HealthMonitor.probeIssueTime, HealthMonitor.probeSettleTime, Nat.succ_mul]
  omega

/-- C5 counterexample: a failed probe on an already-unhealthy monitor leaves
the healthy flag unchanged yet still emits a `healthChange` notification —
emission on the failure path is unconditional, not edge-triggered. -/
theorem healthMonitor_unhealthy_failure_emits_cex :
    (let m : HealthMonitor := ⟨5000, 10000, true, false, none⟩
     let r := m.checkHealth (ProbeOutcome.failure "Health check timeout")
     r.1.isHealthy = m.isHealthy ∧ hasHealthChange r.2 = true) :=
  ⟨rfl, rfl⟩

/-- C5 amended: `_checkHealth` emits `healthChange` exactly when the healthy
flag transitions or the probe failed — the success path is edge-triggered,
the failure path emits on every failed probe even when already unhealthy. -/
theorem healthMonitor_healthChange_characterization (m : HealthMonitor) (o : ProbeOutcome) :
    hasHealthChange (m.checkHealth o).2 = true ↔
      ((m.checkHealth o).1.isHealthy ≠ m.isHealthy ∨ o.isFailure = true) := by
  cases o with
  | success l =>
    cases hm : m.isHealthy <;>
      simp [HealthMonitor.checkHealth, hasHealthChange, ProbeOutcome.isFailure, hm]
  | failure r =>
    simp [HealthMonitor.checkHealth, hasHealthChange, ProbeOutcome.isFailure]

/-- C10: `_buildCurlCommand` interpolates caller-supplied params verbatim with
no quoting or escaping — the getPage command is literally a fixed prefix with
`page_id` appended — and there are params containing shell metacharacters
that alter the structure of the constructed command: a space in `page_id`
adds a shell field, a single quote in `page_id` leaves the command with an
unterminated quote, and a single quote inside a property value of the
movePage body escapes the single-quoted `-d` argument (the benign body is one
intact field, the quoted one leaves the command unterminated). -/
theorem fallback_curl_shell_injection :
    (∀ pid key,
      FallbackStrategy.buildCurlCommand "getPage" { emptyParams with page_id := pid } key =
        Except.ok ("curl -s" ++ lineCont ++ buildHeaders key ++ lineCont ++
          notionBaseUrl ++ "/pages/" ++ pid)) ∧
    (shSplit benignGetCmd).2 = false ∧
    (shSplit spacedGetCmd).1.length = (shSplit benignGetCmd).1.length + 1 ∧
    (shSplit quotedGetCmd).2 = true ∧
    (shSplit benignMoveCmd).2 = false ∧
    ((shSplit benignMoveCmd).1.contains
      (stringifyObjOpt [("parent", some (Json.obj [("page_id", Json.str "Q1")]))]) = true) ∧
    (shSplit quotedMoveCmd).2 = true := by
  refine ⟨fun pid key => rfl, ?_, ?_, ?_, ?_, ?_, ?_⟩ <;> decide
